import Mathlib

/-!
Verification of the completion engine in `questionary/completer.py` and the
prompt glue in `questionary/prompts/text.py`.

The Python code is shallowly embedded: strings are Lean `String`s (sequences
of Unicode scalar values, matching Python's sequences of code points),
Python exceptions are an explicit `PyExc` error type threaded through
`Except`, the operating system (directory listing, `isdir`, `expanduser`,
`os.access`, `os.environ`) is a record of oracle functions `OSModel`
supplied at call time, and a generator is modelled by the list of values it
yielded together with the exception (if any) that escaped to the consumer.
-/

/-- Python exceptions that the embedded code can raise or catch.
`osError` stands for `OSError` and all of its subclasses; the others are
distinct non-`OSError` exception classes. -/
inductive PyExc where
  | osError
  | typeError
  | assertionError
  | valueError
  | reError
deriving DecidableEq

/-- Whether the exception is an `OSError` (the class caught by the
`except OSError: pass` handler in `PathCompleter.get_completions`). -/
def PyExc.isOSError : PyExc → Bool
  | .osError => true
  | _ => false

/-- The library type `prompt_toolkit.completion.Completion(text, start_position, display,
display_meta)`.  When the Python call site omits `display` it defaults to
`text`, and an omitted `display_meta` defaults to the empty string; the
embedding always stores the resolved values. -/
structure Completion where
  text : String
  start_position : Int
  display : String
  display_meta : String
deriving DecidableEq

/-- The operating-system facilities used by the completers, supplied by the
world at call time.  `listdir d = none` models `os.listdir` raising
`OSError`; `os.path.isdir` never raises (it returns `False` on errors), so
`isdir` is total; `expanduser` is `os.path.expanduser`; `access_exec p` is
`os.access(p, os.X_OK)`; `environ k` is `os.environ.get(k)`. -/
structure OSModel where
  isdir : String → Bool
  listdir : String → Option (List String)
  expanduser : String → String
  access_exec : String → Bool
  environ : String → Option String

/-! ### Python string primitives -/

/-- Python `str.strip()`: remove leading and trailing whitespace. -/
def pyStrip (s : String) : String :=
  String.mk (((s.data.dropWhile Char.isWhitespace).reverse.dropWhile Char.isWhitespace).reverse)

/-- Worker for `splitChars`: splits a character list at every character
satisfying `p`, keeping empty segments, exactly like `re.split` with a
single-character class. -/
def splitCharsAux (p : Char → Bool) (acc : List Char) : List Char → List (List Char)
  | [] => [acc.reverse]
  | c :: cs => if p c then acc.reverse :: splitCharsAux p [] cs else splitCharsAux p (c :: acc) cs

/-- Split a character list on every character satisfying `p`, keeping empty
segments.  This is the semantics of `re.split('[...]', s)` where the class
matches exactly the characters with `p c = true`. -/
def splitChars (p : Char → Bool) (l : List Char) : List (List Char) :=
  splitCharsAux p [] l

/-- Python `str.split()` with no argument: split on whitespace runs,
discarding empty segments. -/
def pySplitWs (s : String) : List String :=
  ((splitChars Char.isWhitespace s.data).map String.mk).filter (fun t => t ≠ "")

/-- Python `str.split(sep)` for a one-character separator `sep`: split at
every occurrence, keeping empty segments (so `''.split(sep) = ['']`). -/
def pySplitOn (s : String) (sep : Char) : List String :=
  (splitChars (fun c => c = sep) s.data).map String.mk

/-- Python `sep.join(parts)`. -/
def pyJoin (sep : String) : List String → String
  | [] => ""
  | [s] => s
  | s :: rest => s ++ sep ++ pyJoin sep rest

/-- Python `haystack.startswith(needle)` (character-wise, case-sensitive). -/
def pyStartsWith (s pre : String) : Bool :=
  pre.data.isPrefixOf s.data

/-- Worker for `pyIn`: does `needle` occur as a contiguous sublist starting
at some suffix of the second argument? -/
def pyInAux (needle : List Char) : List Char → Bool
  | [] => needle.isEmpty
  | c :: cs => needle.isPrefixOf (c :: cs) || pyInAux needle cs

/-- Python `needle in haystack` for strings: contiguous substring test. -/
def pyIn (needle hay : String) : Bool :=
  pyInAux needle.data hay.data

/-- Python `s[n:]`: drop the first `n` characters. -/
def pyDrop (s : String) (n : Nat) : String :=
  String.mk (s.data.drop n)

/-- The lowercase expansion of one character under Python 3's
`str.lower()`.  CPython applies the Unicode full (special) casing, under
which a character may lower to *several* code points: U+0130 (LATIN
CAPITAL LETTER I WITH DOT ABOVE) lowers to `'i'` followed by U+0307
(COMBINING DOT ABOVE).  That expanding case is modelled exactly; the
remaining characters use the simple one-to-one mapping (ASCII here — no
claim depends on the simple mapping of other code points). -/
def charLower (c : Char) : List Char :=
  if c = 'İ' then ['i', '̇'] else [c.toLower]

/-- Python `str.lower()`: concatenation of the per-character lowercase
expansions, which is *not* length-preserving in general (see `charLower`
on U+0130). -/
def pyLower (s : String) : String :=
  String.mk (s.data.flatMap charLower)

/-! ### POSIX path helpers (`os.path` on a `/`-separated platform) -/

/-- Split a character list at its last `'/'`: returns
(everything up to and including the last slash, everything after it). -/
def splitAtLastSlash : List Char → List Char × List Char
  | [] => ([], [])
  | c :: cs =>
    if cs.contains '/' then
      let r := splitAtLastSlash cs
      (c :: r.1, r.2)
    else if c = '/' then ([c], cs)
    else ([], c :: cs)

/-- Model of `os.path.basename` on POSIX: everything after the last `'/'`. -/
def posixBasename (p : String) : String :=
  String.mk (splitAtLastSlash p.data).2

/-- Remove all trailing `'/'` characters (`str.rstrip('/')`). -/
def rstripSlashes (s : String) : String :=
  String.mk ((s.data.reverse.dropWhile (fun c => c = '/')).reverse)

/-- Model of `os.path.dirname` on POSIX: the part before the last `'/'`, with
trailing slashes stripped unless the result consists only of slashes. -/
def posixDirname (p : String) : String :=
  let head := String.mk (splitAtLastSlash p.data).1
  if head ≠ "" ∧ head.data.any (fun c => c ≠ '/') then rstripSlashes head else head

/-- Model of `os.path.join(a, b)` on POSIX. -/
def posixJoin (a b : String) : String :=
  if b.data.head? = some '/' then b
  else if a = "" ∨ a.data.getLast? = some '/' then a ++ b
  else a ++ "/" ++ b

/-! ### Python string ordering

Python compares strings lexicographically by code point.  `charListLt` is
that strict order on the underlying character lists; it is kept as a
`Bool`-valued function so that concrete instances evaluate by `decide`. -/

/-- Strict lexicographic order on character lists (Python string `<`). -/
def charListLt : List Char → List Char → Bool
  | [], [] => false
  | [], _ :: _ => true
  | _ :: _, [] => false
  | a :: as, b :: bs => decide (a < b) || (a == b && charListLt as bs)

/-- Python string `<`. -/
def pyStrLtB (a b : String) : Bool := charListLt a.data b.data

/-- Python string `≤` (i.e. not `>`). -/
def pyStrLeB (a b : String) : Bool := !(charListLt b.data a.data)

theorem charListLt_irrefl : ∀ x : List Char, charListLt x x = false := by
  intro x
  induction x with
  | nil => rfl
  | cons a as ih => simp [charListLt, ih]

theorem charListLt_asymm :
    ∀ x y : List Char, charListLt x y = true → charListLt y x = false := by
  intro x
  induction x with
  | nil =>
    intro y h
    cases y with
    | nil => simp [charListLt] at h
    | cons b bs => simp [charListLt]
  | cons a as ih =>
    intro y h
    cases y with
    | nil => simp [charListLt] at h
    | cons b bs =>
      simp only [charListLt, Bool.or_eq_true, Bool.and_eq_true, decide_eq_true_eq,
        beq_iff_eq] at h
      rcases h with h | ⟨heq, h2⟩
      · have h1 : ¬ b < a := lt_asymm h
        have h2 : b ≠ a := ne_of_gt h
        simp [charListLt, h1, h2]
      · subst heq
        simp [charListLt, lt_irrefl, ih bs h2]

theorem charListLt_cotrans :
    ∀ x y z : List Char, charListLt x z = true →
      charListLt x y = true ∨ charListLt y z = true := by
  intro x
  induction x with
  | nil =>
    intro y z h
    cases z with
    | nil => simp [charListLt] at h
    | cons c cs =>
      cases y with
      | nil => right; simp [charListLt]
      | cons b bs => left; simp [charListLt]
  | cons a as ih =>
    intro y z h
    cases z with
    | nil => simp [charListLt] at h
    | cons c cs =>
      cases y with
      | nil => right; simp [charListLt]
      | cons b bs =>
        simp only [charListLt, Bool.or_eq_true, Bool.and_eq_true, decide_eq_true_eq,
          beq_iff_eq] at h ⊢
        rcases h with h | ⟨heq, h2⟩
        · rcases lt_trichotomy a b with hab | hab | hab
          · exact Or.inl (Or.inl hab)
          · subst hab; exact Or.inr (Or.inl h)
          · exact Or.inr (Or.inl (lt_trans hab h))
        · subst heq
          rcases lt_trichotomy a b with hab | hab | hab
          · exact Or.inl (Or.inl hab)
          · subst hab
            rcases ih bs cs h2 with h | h
            · exact Or.inl (Or.inr ⟨rfl, h⟩)
            · exact Or.inr (Or.inr ⟨rfl, h⟩)
          · exact Or.inr (Or.inl hab)

/-- The sort key used by `PathCompleter.get_completions`
(`sorted(filenames, key=lambda k: k[1])`): compare `(directory, filename)`
pairs by filename, ascending. -/
def fnameLe (p q : String × String) : Prop := pyStrLeB p.2 q.2 = true

instance : DecidableRel fnameLe := fun _ _ => inferInstanceAs (Decidable (_ = true))

instance : IsTotal (String × String) fnameLe := by
  constructor
  intro p q
  by_cases h : charListLt q.2.data p.2.data = true
  · right
    simp [fnameLe, pyStrLeB, charListLt_asymm _ _ h]
  · left
    simp [fnameLe, pyStrLeB, Bool.not_eq_true _ ▸ h]

instance : IsTrans (String × String) fnameLe := by
  constructor
  intro p q r hpq hqr
  simp only [fnameLe, pyStrLeB, Bool.not_eq_true'] at hpq hqr ⊢
  by_contra hcon
  have h : charListLt r.2.data p.2.data = true := by
    revert hcon
    cases charListLt r.2.data p.2.data <;> simp
  rcases charListLt_cotrans _ q.2.data _ h with h' | h'
  · rw [hqr] at h'; exact Bool.false_ne_true h'
  · rw [hpq] at h'; exact Bool.false_ne_true h'

/-- Python's `sorted` (a stable ascending sort), modelled by insertion sort,
which produces the same list as any stable sort with respect to a total
preorder. -/
def sortByFilename (l : List (String × String)) : List (String × String) :=
  List.insertionSort fnameLe l

/-! ### `PathCompleter` (completer.py lines 16-101) -/

/-- Configuration stored by `PathCompleter.__init__`.  The caller-supplied
`get_paths` and `file_filter` closures may consult the operating system and
may raise; they receive the world (`OSModel`) at call time.  `none` for
`get_paths` defaults to `lambda: ['.']` and `none` for `file_filter` to
`lambda _: True`; the embedding stores the resolved defaults the way the
constructor does. -/
structure PathConfig where
  only_directories : Bool
  get_paths : OSModel → Except PyExc (List String)
  file_filter : OSModel → String → Except PyExc Bool
  min_input_len : Int
  expanduser : Bool
  delimiters : Option String

/-- The configuration produced by `PathCompleter()` with all defaults. -/
def defaultPathConfig : PathConfig :=
  { only_directories := false
    get_paths := fun _ => .ok ["."]
    file_filter := fun _ _ => .ok true
    min_input_len := 0
    expanduser := false
    delimiters := none }

/-- Lines 43-47 of `get_completions`: strip the text before the cursor and,
when `delimiters` is configured, split it with
`re.split('[' + '|'.join(map(re.escape, self.delimiters.split())) + ']', text)`
and keep the last segment, stripped.  Note `self.delimiters.split()` splits
the delimiter string on *whitespace*, and `'|'.join` inserts literal `'|'`
characters into the class.  When the delimiter string has no non-whitespace
characters the pattern is the invalid regex `[]` and `re.split` raises
`re.error` (outside the `try`, so it propagates). -/
def pathWorkingText (cfg : PathConfig) (text_before_cursor : String) : Except PyExc String :=
  match cfg.delimiters with
  | none => .ok (pyStrip text_before_cursor)
  | some d =>
    if pySplitWs d = [] then .error .reError
    else
      .ok (pyStrip (String.mk ((splitChars (fun c => (pyJoin "|" (pySplitWs d)).data.contains c)
        (pyStrip text_before_cursor).data).getLastD [])))

/-- Lines 72-78: for each candidate directory that `os.path.isdir` accepts,
list it and keep the `(directory, filename)` pairs whose filename starts
with `pfx`.  A failing `os.listdir` raises `OSError`. -/
def pathListDirs (os : OSModel) (pfx : String) : List String → Except PyExc (List (String × String))
  | [] => .ok []
  | d :: ds =>
    if os.isdir d then
      match os.listdir d with
      | none => .error .osError
      | some files =>
        match pathListDirs os pfx ds with
        | .error e => .error e
        | .ok rest => .ok (((files.filter (fun f => pyStartsWith f pfx)).map (fun f => (d, f))) ++ rest)
    else pathListDirs os pfx ds

/-- Lines 56-58: the working text after optional tilde expansion
(`os.path.expanduser`). -/
def pathExpanded (os : OSModel) (cfg : PathConfig) (t : String) : String :=
  if cfg.expanduser then os.expanduser t else t

/-- Lines 60-66: the directories to look into.  When the working text has a
directory part, each search base is joined with the full working text and
the dirname of the result is taken; otherwise the search bases are used
directly. -/
def pathCandidateDirs (os : OSModel) (cfg : PathConfig) (t : String) (paths : List String) :
    List String :=
  if posixDirname (pathExpanded os cfg t) = "" then paths
  else paths.map (fun p => posixDirname (posixJoin p (pathExpanded os cfg t)))

/-- Lines 56-81 of the `try` block: tilde expansion, computing the candidate
directories and the basename `pfx` being typed, gathering matching
`(directory, filename)` pairs and sorting them by filename. -/
def pathPrep (os : OSModel) (cfg : PathConfig) (text0 : String) :
    Except PyExc (String × List (String × String)) :=
  match cfg.get_paths os with
  | .error e => .error e
  | .ok paths =>
    match pathListDirs os (posixBasename (pathExpanded os cfg text0))
        (pathCandidateDirs os cfg text0 paths) with
    | .error e => .error e
    | .ok pairs => .ok (posixBasename (pathExpanded os cfg text0), sortByFilename pairs)

/-- Line 92: the displayed filename, with a trailing `'/'` appended when
the resolved full path is a directory. -/
def pathDisplayOf (os : OSModel) (p : String × String) : String :=
  if os.isdir (posixJoin p.1 p.2) then p.2 ++ "/" else p.2

/-- Line 99: `Completion(filename[len(prefix):], 0, display=filename)`. -/
def pathCompletionOf (os : OSModel) (pfx : String) (p : String × String) : Completion :=
  ⟨pyDrop p.2 pfx.length, 0, pathDisplayOf os p, ""⟩

/-- Lines 84-99, the yield loop of the generator: the result is the list of
completions yielded together with the exception (if any) raised inside the
loop; completions yielded before an exception are kept, because the
consumer received them before the generator died. -/
def pathYield (os : OSModel) (cfg : PathConfig) (pfx : String) :
    List (String × String) → List Completion × Option PyExc
  | [] => ([], none)
  | (d, f) :: rest =>
    if !(os.isdir (posixJoin d f)) && cfg.only_directories then
      pathYield os cfg pfx rest
    else
      match cfg.file_filter os (posixJoin d f) with
      | .error e => ([], some e)
      | .ok false => pathYield os cfg pfx rest
      | .ok true =>
        (pathCompletionOf os pfx (d, f) :: (pathYield os cfg pfx rest).1,
         (pathYield os cfg pfx rest).2)

/-- Model of `PathCompleter.get_completions` as observed by the consumer of the
generator: the list of yielded completions and the exception (if any) that
escaped.  The `try ... except OSError: pass` on lines 55-101 swallows
`OSError` (ending the stream silently) and lets every other exception
propagate. -/
def pathGetCompletions (os : OSModel) (cfg : PathConfig) (text_before_cursor : String) :
    List Completion × Option PyExc :=
  match pathWorkingText cfg text_before_cursor with
  | .error e => ([], some e)
  | .ok text =>
    if (text.length : Int) < cfg.min_input_len then ([], none)
    else
      match pathPrep os cfg text with
      | .error e => ([], if e.isOSError then none else some e)
      | .ok (pfx, sorted) =>
        ((pathYield os cfg pfx sorted).1,
         match (pathYield os cfg pfx sorted).2 with
         | none => none
         | some e => if e.isOSError then none else some e)

/-! ### `ExecutableCompleter` (completer.py lines 104-116) -/

/-- The configuration installed by `ExecutableCompleter.__init__`:
`get_paths` splits the `PATH` environment variable on `os.pathsep` (`':'`
on POSIX) at call time, and `file_filter` is `os.access(name, os.X_OK)`. -/
def execConfig : PathConfig :=
  { only_directories := false
    get_paths := fun os => .ok (pySplitOn ((os.environ "PATH").getD "") ':')
    file_filter := fun os name => .ok (os.access_exec name)
    min_input_len := 1
    expanduser := true
    delimiters := none }

/-- Model of `ExecutableCompleter().get_completions`. -/
def execGetCompletions (os : OSModel) (text_before_cursor : String) :
    List Completion × Option PyExc :=
  pathGetCompletions os execConfig text_before_cursor

/-! ### `text()` prompt glue (prompts/text.py lines 73-80)

Python raises `TypeError` when a call passes a keyword argument the callee
does not accept.  `pyCallKw accepted passed` models binding the keyword
arguments named `passed` against a callable accepting the keywords
`accepted`. -/

/-- Python keyword-argument binding: `TypeError` on an unexpected keyword. -/
def pyCallKw (accepted passed : List String) : Except PyExc Unit :=
  if passed.all (fun k => accepted.contains k) then .ok () else .error .typeError

/-- Keyword parameters of `PathCompleter.__init__` (completer.py line 27). -/
def pathCompleterKwNames : List String :=
  ["only_directories", "get_paths", "file_filter", "min_input_len", "expanduser", "delimiters"]

/-- Keyword parameters of `ExecutableCompleter.__init__` (completer.py
line 109): it accepts no argument besides `self`. -/
def executableCompleterKwNames : List String := []

/-- The completer chosen by `text()` (text.py lines 73-80): the
`path_autocomplete` branch builds
`PathCompleter(expanduser=True, delimiters=' \t\n;,')`, the
`exec_autocomplete` branch calls
`ExecutableCompleter(delimiters=' \t\n;,')`, and the
`custom_autocomplete` branch uses prompt_toolkit's own word completer
(external to this repository), modelled as no repo completer.  Returns the
resulting `PathConfig` when a repo path completer was built. -/
def textBuildCompleter (path_autocomplete exec_autocomplete custom_autocomplete : Bool) :
    Except PyExc (Option PathConfig) :=
  if path_autocomplete then
    match pyCallKw pathCompleterKwNames ["expanduser", "delimiters"] with
    | .error e => .error e
    | .ok _ =>
      .ok (some { defaultPathConfig with expanduser := true, delimiters := some " \t\n;," })
  else if exec_autocomplete then
    match pyCallKw executableCompleterKwNames ["delimiters"] with
    | .error e => .error e
    | .ok _ => .ok (some execConfig)
  else if custom_autocomplete then .ok none
  else .ok none

/-! ### `WordCompleter` (completer.py lines 119-180) -/

/-- The word list passed to `WordCompleter`: either a fixed list or a
zero-argument callable evaluated on every completion request. -/
def WordsSource : Type := List String ⊕ (Unit → List String)

/-- The state stored by a successfully constructed `WordCompleter`. -/
structure WordCompleter where
  words : WordsSource
  ignore_case : Bool
  meta_dict : List (String × String)
  WORD : Bool
  sentence : Bool
  match_middle : Bool
  pat : Option String

/-- Model of `WordCompleter.__init__` (lines 137-149): `assert not (WORD and
sentence)` raises `AssertionError` at construction time.  The second
assertion (`words` is callable or a collection of strings) always holds in
this typed embedding.  The `pattern` argument is stored but never used by
`get_completions`. -/
def WordCompleter.init (words : WordsSource) (ignore_case : Bool)
    (meta_dict : List (String × String)) (WORD sentence match_middle : Bool)
    (pat : Option String) : Except PyExc WordCompleter :=
  if WORD && sentence then .error .assertionError
  else .ok { words := words, ignore_case := ignore_case, meta_dict := meta_dict,
             WORD := WORD, sentence := sentence, match_middle := match_middle, pat := pat }

/-- The relevant observations of a `prompt_toolkit.document.Document`:
the text before the cursor, and the results of the library's
`get_word_before_cursor(WORD=False)` / `get_word_before_cursor(WORD=True)`
tokenizer (external to this repository, treated as an oracle). -/
structure Document where
  text_before_cursor : String
  word_before_cursor_narrow : String
  word_before_cursor_WORD : String

/-- Lines 157-162: the anchor the completer matches against, before any
case folding: the whole text before the cursor in sentence mode, otherwise
the current token from the library tokenizer. -/
def wordAnchor (self : WordCompleter) (doc : Document) : String :=
  if self.sentence then doc.text_before_cursor
  else if self.WORD then doc.word_before_cursor_WORD
  else doc.word_before_cursor_narrow

/-- Line 164-165: the anchor after optional case folding. -/
def wordFoldedAnchor (self : WordCompleter) (doc : Document) : String :=
  if self.ignore_case then pyLower (wordAnchor self doc) else wordAnchor self doc

/-- Lines 153-155: resolve the word list, invoking the supplier if callable. -/
def wordResolvedWords (self : WordCompleter) : List String :=
  match self.words with
  | .inl l => l
  | .inr f => f ()

/-- Line 169-170: a candidate word after optional case folding. -/
def wordFold (self : WordCompleter) (w : String) : String :=
  if self.ignore_case then pyLower w else w

/-- Model of `word_matches` (lines 167-175): fold the candidate word if
`ignore_case`, then substring or starts-with test against the anchor. -/
def wordMatchesB (self : WordCompleter) (wbc w : String) : Bool :=
  if self.match_middle then pyIn wbc (wordFold self w)
  else pyStartsWith (wordFold self w) wbc

/-- Model of `WordCompleter.get_completions` (lines 151-180): yields
`Completion(a, -len(word_before_cursor), display_meta=meta_dict.get(a, ''))`
for every matching word `a`, where `word_before_cursor` is the (possibly
case-folded) anchor.  This generator raises nothing, so the result is just
the list of yielded completions. -/
def wordGetCompletions (self : WordCompleter) (doc : Document) : List Completion :=
  (wordResolvedWords self).filterMap (fun a =>
    if wordMatchesB self (wordFoldedAnchor self doc) a then
      some ⟨a, -((wordFoldedAnchor self doc).length : Int), a, (self.meta_dict.lookup a).getD ""⟩
    else none)

/-! ### Claim-side and amended-side formulations -/

/-- Claim C2's reading of the delimiter handling: split the trimmed text on
every individual character of the configured delimiter string (and nothing
else), take the last *non-empty* segment, and trim it. -/
def claimWorkingText (delims text_before_cursor : String) : String :=
  let segs := (splitChars (fun c => delims.data.contains c) (pyStrip text_before_cursor).data).map
    String.mk
  pyStrip ((segs.filter (fun s => s ≠ "")).getLastD "")

/-- The split points the code actually uses when `delimiters = d`: the
characters of the whitespace-separated chunks of `d`, plus a literal `'|'`
whenever there are at least two chunks. -/
def amendedSplitPt (d : String) (c : Char) : Bool :=
  (pySplitWs d).any (fun chunk => chunk.data.contains c) ||
    (decide (2 ≤ (pySplitWs d).length) && (c == '|'))

/-- Remove a single trailing `'/'` if present: recovers the raw filename
from a displayed name to which line 92 may have appended a separator. -/
def stripTrailingSlash (s : String) : String :=
  if s.data.getLast? = some '/' then String.mk s.data.dropLast else s

/-! ### Concrete worlds and configurations used as witnesses and
counterexamples -/

/-- A world with a single directory `"."` containing one file `"ab"`. -/
def osA : OSModel :=
  { isdir := fun d => d = "."
    listdir := fun d => if d = "." then some ["ab"] else none
    expanduser := id
    access_exec := fun _ => false
    environ := fun _ => none }

/-- The configuration `PathCompleter()` with every argument left at its default. -/
def cfgA : PathConfig := defaultPathConfig

/-- The configuration `PathCompleter(delimiters=' ;')`: the delimiter set contains a space
and a semicolon. -/
def cfgB : PathConfig := { defaultPathConfig with delimiters := some " ;" }

/-- A world with directories `"d1"` and `"d2"` where listing `"d1"`
succeeds (one file `"f"`) and listing `"d2"` raises `OSError`. -/
def osC : OSModel :=
  { isdir := fun d => d = "d1" || d = "d2"
    listdir := fun d => if d = "d1" then some ["f"] else none
    expanduser := id
    access_exec := fun _ => false
    environ := fun _ => none }

/-- The configuration `PathCompleter(get_paths=lambda: ['d1', 'd2'])`. -/
def cfgC : PathConfig := { defaultPathConfig with get_paths := fun _ => .ok ["d1", "d2"] }

/-- The configuration `PathCompleter(get_paths=lambda: ['d1'])`. -/
def cfgC1 : PathConfig := { defaultPathConfig with get_paths := fun _ => .ok ["d1"] }

/-- A `PathCompleter` whose `get_paths` supplier raises `OSError`
(e.g. `os.listdir` inside the supplier failing). -/
def cfgD : PathConfig := { defaultPathConfig with get_paths := fun _ => .error .osError }

/-- A `PathCompleter` whose `get_paths` supplier raises a non-`OSError`
exception (`ValueError`). -/
def cfgD1 : PathConfig := { defaultPathConfig with get_paths := fun _ => .error .valueError }

/-- A world with directory `"."` containing the files `"a"` and `"b"`. -/
def osG : OSModel :=
  { isdir := fun d => d = "."
    listdir := fun d => if d = "." then some ["a", "b"] else none
    expanduser := id
    access_exec := fun _ => false
    environ := fun _ => none }

/-- A `PathCompleter` whose `file_filter` raises `ValueError` on the path
`"./b"` (the second sorted candidate) and accepts everything else. -/
def cfgG : PathConfig :=
  { defaultPathConfig with
      file_filter := fun _ name => if name = "./b" then .error .valueError else .ok true }

/-- A world with directory `"."` containing a subdirectory `"a"` and a
file `"a-b"`. -/
def osE : OSModel :=
  { isdir := fun d => d = "." || d = "./a"
    listdir := fun d => if d = "." then some ["a", "a-b"] else none
    expanduser := id
    access_exec := fun _ => false
    environ := fun _ => none }

/-- The spec's directory scenario: `/tmp/x` contains `alpha.txt`,
`alphabet/` (a subdirectory) and `beta.txt`. -/
def osW6 : OSModel :=
  { isdir := fun d => d = "/tmp/x" || d = "/tmp/x/alphabet"
    listdir := fun d => if d = "/tmp/x" then some ["alpha.txt", "alphabet", "beta.txt"] else none
    expanduser := id
    access_exec := fun _ => false
    environ := fun _ => none }

/-- The configuration `PathCompleter(get_paths=lambda: ['/tmp'])`. -/
def cfgW6 : PathConfig := { defaultPathConfig with get_paths := fun _ => .ok ["/tmp"] }

/-- A world where `PATH` is set but empty, `/usr` is a real directory
containing the executable directory `bin`. -/
def osF : OSModel :=
  { isdir := fun d => d = "/usr" || d = "/usr/bin"
    listdir := fun d => if d = "/usr" then some ["bin"] else none
    expanduser := id
    access_exec := fun _ => true
    environ := fun k => if k = "PATH" then some "" else none }

/-- A world where `PATH` is set but empty and nothing is a directory. -/
def osF1 : OSModel :=
  { isdir := fun _ => false
    listdir := fun _ => none
    expanduser := id
    access_exec := fun _ => true
    environ := fun k => if k = "PATH" then some "" else none }

/-- The completer `WordCompleter(['add', 'remove', 'update'], ignore_case=True)`. -/
def selfW : WordCompleter :=
  { words := .inl ["add", "remove", "update"], ignore_case := true, meta_dict := [],
    WORD := false, sentence := false, match_middle := false, pat := none }

/-- A document whose current token before the cursor is `"AD"`. -/
def docW : Document :=
  { text_before_cursor := "AD", word_before_cursor_narrow := "AD", word_before_cursor_WORD := "AD" }

/-- The completer `WordCompleter(['create', 'update'], match_middle=True)`. -/
def selfX : WordCompleter :=
  { words := .inl ["create", "update"], ignore_case := false, meta_dict := [],
    WORD := false, sentence := false, match_middle := true, pat := none }

/-- A document whose current token before the cursor is `"eat"`. -/
def docX : Document :=
  { text_before_cursor := "eat", word_before_cursor_narrow := "eat", word_before_cursor_WORD := "eat" }

/-- The completer `WordCompleter(['i̇z'], ignore_case=True)`: its one
word is lowercase `i`, COMBINING DOT ABOVE, `z`. -/
def selfY : WordCompleter :=
  { words := .inl ["i̇z"], ignore_case := true, meta_dict := [],
    WORD := false, sentence := false, match_middle := false, pat := none }

/-- A document whose current token before the cursor is the single
character U+0130 (LATIN CAPITAL LETTER I WITH DOT ABOVE), whose Python
lowercase form has two code points. -/
def docY : Document :=
  { text_before_cursor := "İ", word_before_cursor_narrow := "İ",
    word_before_cursor_WORD := "İ" }

/-! ### Helper lemmas -/

theorem pathWorkingText_error {cfg : PathConfig} {tbc : String} {e : PyExc}
    (h : pathWorkingText cfg tbc = .error e) : e = .reError := by
  unfold pathWorkingText at h
  split at h
  · cases h
  · split at h
    · cases h; rfl
    · cases h

theorem sortByFilename_perm (l : List (String × String)) : List.Perm (sortByFilename l) l :=
  List.perm_insertionSort fnameLe l

theorem sortByFilename_pairwise (l : List (String × String)) :
    List.Pairwise fnameLe (sortByFilename l) :=
  List.sorted_insertionSort fnameLe l

theorem pathListDirs_mem (os : OSModel) (pfx : String) :
    ∀ (dirs : List String) (pairs : List (String × String)),
      pathListDirs os pfx dirs = .ok pairs →
      ∀ p ∈ pairs, pyStartsWith p.2 pfx = true ∧ ∃ l, os.listdir p.1 = some l ∧ p.2 ∈ l := by
  intro dirs
  induction dirs with
  | nil =>
    intro pairs h p hp
    unfold pathListDirs at h
    cases h
    cases hp
  | cons d ds ih =>
    intro pairs h p hp
    unfold pathListDirs at h
    split at h
    · split at h
      · cases h
      · rename_i files hl
        split at h
        · cases h
        · rename_i rest hr
          cases h
          rcases List.mem_append.mp hp with hmem | hmem
          · rcases List.mem_map.mp hmem with ⟨f, hf, hfp⟩
            subst hfp
            obtain ⟨hfl, hfp2⟩ := List.mem_filter.mp hf
            exact ⟨hfp2, files, hl, hfl⟩
          · exact ih rest hr p hmem
    · exact ih pairs h p hp

theorem pathYield_shape (os : OSModel) (cfg : PathConfig) (pfx : String) :
    ∀ pairs : List (String × String), ∃ sub : List (String × String),
      sub.Sublist pairs ∧
      (pathYield os cfg pfx pairs).1 = sub.map (pathCompletionOf os pfx) := by
  intro pairs
  induction pairs with
  | nil => exact ⟨[], List.Sublist.refl [], rfl⟩
  | cons hd rest ih =>
    obtain ⟨d, f⟩ := hd
    obtain ⟨sub, hsub, heq⟩ := ih
    by_cases hskip : (!(os.isdir (posixJoin d f)) && cfg.only_directories) = true
    · refine ⟨sub, hsub.cons _, ?_⟩
      simp only [pathYield, if_pos hskip]
      exact heq
    · rcases hff : cfg.file_filter os (posixJoin d f) with e | b
      · refine ⟨[], List.nil_sublist _, ?_⟩
        simp only [pathYield, if_neg hskip, hff, List.map_nil]
      · cases b
        · refine ⟨sub, hsub.cons _, ?_⟩
          simp only [pathYield, if_neg hskip, hff]
          exact heq
        · refine ⟨(d, f) :: sub, hsub.cons₂ _, ?_⟩
          simp only [pathYield, if_neg hskip, hff, List.map_cons]
          exact congrArg _ heq

theorem pathYield_some_iff (os : OSModel) (cfg : PathConfig) (pfx : String) :
    ∀ pairs : List (String × String),
      (∃ e, (pathYield os cfg pfx pairs).2 = some e) ↔
        ∃ p ∈ pairs, (!(os.isdir (posixJoin p.1 p.2)) && cfg.only_directories) = false ∧
          ∃ e, cfg.file_filter os (posixJoin p.1 p.2) = .error e := by
  intro pairs
  induction pairs with
  | nil => simp [pathYield]
  | cons hd rest ih =>
    obtain ⟨d, f⟩ := hd
    by_cases hskip : (!(os.isdir (posixJoin d f)) && cfg.only_directories) = true
    · simp only [pathYield, if_pos hskip]
      rw [ih]
      constructor
      · rintro ⟨p, hp, hps, he⟩
        exact ⟨p, List.mem_cons_of_mem _ hp, hps, he⟩
      · rintro ⟨p, hp, hps, he⟩
        rcases List.mem_cons.mp hp with rfl | hp'
        · rw [hps] at hskip
          exact absurd hskip Bool.false_ne_true
        · exact ⟨p, hp', hps, he⟩
    · have hskipF : (!(os.isdir (posixJoin d f)) && cfg.only_directories) = false := by
        rcases hb : (!(os.isdir (posixJoin d f)) && cfg.only_directories) with _ | _
        · rfl
        · exact absurd hb hskip
      rcases hff : cfg.file_filter os (posixJoin d f) with e | b
      · simp only [pathYield, if_neg hskip, hff]
        constructor
        · rintro -
          exact ⟨(d, f), List.mem_cons_self _ _, hskipF, e, hff⟩
        · rintro -
          exact ⟨e, rfl⟩
      · cases b
        · simp only [pathYield, if_neg hskip, hff]
          rw [ih]
          constructor
          · rintro ⟨p, hp, hps, he⟩
            exact ⟨p, List.mem_cons_of_mem _ hp, hps, he⟩
          · rintro ⟨p, hp, hps, he⟩
            rcases List.mem_cons.mp hp with rfl | hp'
            · obtain ⟨e', he'⟩ := he
              rw [hff] at he'
              cases he'
            · exact ⟨p, hp', hps, he⟩
        · simp only [pathYield, if_neg hskip, hff]
          constructor
          · rintro ⟨e', he'⟩
            have h2 : (pathYield os cfg pfx rest).2 = some e' := he'
            obtain ⟨p, hp, hps, he⟩ := ih.mp ⟨e', h2⟩
            exact ⟨p, List.mem_cons_of_mem _ hp, hps, he⟩
          · rintro ⟨p, hp, hps, he⟩
            rcases List.mem_cons.mp hp with rfl | hp'
            · obtain ⟨e', he'⟩ := he
              rw [hff] at he'
              cases he'
            · obtain ⟨e₀, h₀⟩ := ih.mpr ⟨p, hp', hps, he⟩
              exact ⟨e₀, h₀⟩

theorem pathYield_error_src (os : OSModel) (cfg : PathConfig) (pfx : String) :
    ∀ (pairs : List (String × String)) (e : PyExc),
      (pathYield os cfg pfx pairs).2 = some e →
      ∃ p ∈ pairs, cfg.file_filter os (posixJoin p.1 p.2) = .error e := by
  intro pairs
  induction pairs with
  | nil =>
    intro e h
    simp [pathYield] at h
  | cons hd rest ih =>
    obtain ⟨d, f⟩ := hd
    intro e h
    by_cases hskip : (!(os.isdir (posixJoin d f)) && cfg.only_directories) = true
    · rw [pathYield] at h
      rw [if_pos hskip] at h
      obtain ⟨p, hp, he⟩ := ih e h
      exact ⟨p, List.mem_cons_of_mem _ hp, he⟩
    · rcases hff : cfg.file_filter os (posixJoin d f) with e' | b
      · rw [pathYield] at h
        rw [if_neg hskip, hff] at h
        cases h
        exact ⟨(d, f), List.mem_cons_self _ _, hff⟩
      · cases b
        · rw [pathYield] at h
          rw [if_neg hskip, hff] at h
          obtain ⟨p, hp, he⟩ := ih e h
          exact ⟨p, List.mem_cons_of_mem _ hp, he⟩
        · rw [pathYield] at h
          rw [if_neg hskip, hff] at h
          have h2 : (pathYield os cfg pfx rest).2 = some e := h
          obtain ⟨p, hp, he⟩ := ih e h2
          exact ⟨p, List.mem_cons_of_mem _ hp, he⟩

theorem pathPrep_inv {os : OSModel} {cfg : PathConfig} {text pfx : String}
    {sorted : List (String × String)} (h : pathPrep os cfg text = .ok (pfx, sorted)) :
    ∃ dirs pairs, pathListDirs os pfx dirs = .ok pairs ∧ sorted = sortByFilename pairs ∧
      pfx = posixBasename (pathExpanded os cfg text) := by
  unfold pathPrep at h
  split at h
  · cases h
  · split at h
    · cases h
    · rename_i pairs hld
      cases h
      exact ⟨_, pairs, hld, rfl, rfl⟩

theorem stripTrailingSlash_append (f : String) : stripTrailingSlash (f ++ "/") = f := by
  have hdata : (f ++ "/").data = f.data ++ ['/'] := rfl
  unfold stripTrailingSlash
  rw [hdata]
  simp

theorem stripTrailingSlash_of_ne {f : String} (h : f.data.getLast? ≠ some '/') :
    stripTrailingSlash f = f := by
  unfold stripTrailingSlash
  rw [if_neg h]

theorem contains_append (l₁ l₂ : List Char) (c : Char) :
    (l₁ ++ l₂).contains c = (l₁.contains c || l₂.contains c) := by
  induction l₁ with
  | nil => simp
  | cons a as ih => simp [List.contains_cons, ih, Bool.or_assoc]

theorem strData_append (a b : String) : (a ++ b).data = a.data ++ b.data := by
  cases a
  cases b
  rfl

theorem pyJoin_cons₂ (sep s s' : String) (rest : List String) :
    pyJoin sep (s :: s' :: rest) = s ++ sep ++ pyJoin sep (s' :: rest) := rfl

theorem pyJoin_single (sep s : String) : pyJoin sep [s] = s := rfl

theorem pyJoin_bar_contains₂ :
    ∀ (s s' : String) (rest : List String) (c : Char),
      (pyJoin "|" (s :: s' :: rest)).data.contains c =
        ((s :: s' :: rest).any (fun t => t.data.contains c) || (c == '|')) := by
  intro s s' rest
  induction rest generalizing s s' with
  | nil =>
    intro c
    rw [pyJoin_cons₂, pyJoin_single, strData_append, strData_append, contains_append,
      contains_append]
    have hbar : ("|" : String).data = ['|'] := rfl
    rw [hbar, List.contains_cons]
    cases hs : s.data.contains c <;> cases hs' : s'.data.contains c <;> cases hc : (c == '|') <;>
      simp_all
  | cons r rest' ih =>
    intro c
    rw [pyJoin_cons₂, strData_append, strData_append, contains_append, contains_append]
    have hbar : ("|" : String).data = ['|'] := rfl
    rw [hbar, List.contains_cons, ih]
    cases hs : s.data.contains c <;> cases hc : (c == '|') <;>
      cases hr : (s' :: r :: rest').any (fun t => t.data.contains c) <;>
      simp_all

theorem joinClass_eq_amended (d : String) (hne : pySplitWs d ≠ []) (c : Char) :
    (pyJoin "|" (pySplitWs d)).data.contains c = amendedSplitPt d c := by
  unfold amendedSplitPt
  rcases hsp : pySplitWs d with _ | ⟨s, rest⟩
  · exact absurd hsp hne
  rcases rest with _ | ⟨s', rest'⟩
  · simp [pyJoin_single]
  · rw [pyJoin_bar_contains₂]
    have h2 : decide (2 ≤ (s :: s' :: rest').length) = true := by
      simp [List.length_cons]
    rw [h2]
    cases ha : (s :: s' :: rest').any (fun t => t.data.contains c) <;> cases hc : (c == '|') <;>
      simp [ha, hc]

theorem splitCharsAux_congr (p q : Char → Bool) (h : ∀ c, p c = q c) :
    ∀ (l acc : List Char), splitCharsAux p acc l = splitCharsAux q acc l := by
  intro l
  induction l with
  | nil => intro acc; rfl
  | cons c cs ih =>
    intro acc
    simp only [splitCharsAux, h c]
    cases hq : q c
    · simp only [Bool.false_eq_true, if_false, ih]
    · simp only [if_true, ih]

theorem splitChars_congr (p q : Char → Bool) (h : ∀ c, p c = q c) (l : List Char) :
    splitChars p l = splitChars q l :=
  splitCharsAux_congr p q h l []

/-! ### Claim C1 -/

/-- Claim C2, amended: when a delimiter string is configured, the code
first splits the delimiter string itself on whitespace; the split points
are the characters of the resulting chunks plus a literal `'|'` whenever
there are at least two chunks (whitespace characters of the delimiter set
never split).  The working text is the *last* segment of that split (even
when it is empty), trimmed. -/
theorem C2_amended_split_points (cfg : PathConfig) (d tbc : String)
    (hd : cfg.delimiters = some d) (hne : pySplitWs d ≠ []) :
    pathWorkingText cfg tbc =
      .ok (pyStrip (String.mk
        ((splitChars (amendedSplitPt d) (pyStrip tbc).data).getLastD []))) := by
  simp only [pathWorkingText, hd, if_neg hne]
  rw [splitChars_congr _ (amendedSplitPt d) (joinClass_eq_amended d hne)]

/-- Claim C2, counterexample to the claim as stated: with
`delimiters = " ;"` (a space and a semicolon) and input `"x y;z w"`, the
code's working text is `"z w"` — the space in the delimiter set did not
act as a split point — while the claim's reading (split on every character
of the set, last non-empty segment) gives `"w"`. -/
theorem C2_counterexample :
    pathWorkingText cfgB "x y;z w" = .ok "z w" ∧
      claimWorkingText " ;" "x y;z w" = "w" ∧ ("z w" : String) ≠ "w" :=
  ⟨rfl, rfl, by decide⟩

/-- Claim C2, witness: the amended theorem applied to the concrete
configuration `delimiters = " ;"` and input `"x y;z w"`. -/
theorem C2_witness :
    pySplitWs " ;" ≠ [] ∧
      pathWorkingText cfgB "x y;z w" =
        .ok (pyStrip (String.mk
          ((splitChars (amendedSplitPt " ;") (pyStrip "x y;z w").data).getLastD []))) :=
  ⟨by decide, C2_amended_split_points cfgB " ;" "x y;z w" rfl (by decide)⟩

/-! ### Claim C3 -/

/-- Claim C3, amended: calling `text()` with `exec_autocomplete=True` and
`path_autocomplete` falsy raises `TypeError` while building the completer,
because the glue passes a `delimiters` keyword argument to
`ExecutableCompleter`, whose constructor accepts no argument besides
`self`.  (When `path_autocomplete` is also truthy, that branch takes
precedence and no error is raised.) -/
theorem C3_amended_exec_type_error (custom : Bool) :
    textBuildCompleter false true custom = .error .typeError := rfl

/-- Claim C3, counterexample to the claim as stated ("always raises"):
with `path_autocomplete=True` as well, the call builds a `PathCompleter`
and raises nothing. -/
theorem C3_counterexample : (textBuildCompleter true true false).isOk = true := rfl

/-! ### Claim C4 -/

/-- Claim C4, amended: the `try/except OSError` wraps the whole request, and
all directory enumeration happens before the first yield.  A filesystem
access error while enumerating *any* candidate directory therefore aborts
the entire request silently: the request returns no candidates at all —
the contributions of the other, healthy directories are lost too — and no
error reaches the caller. -/
theorem C4_amended_error_aborts_whole_request (os : OSModel) (cfg : PathConfig)
    (tbc text : String)
    (hwt : pathWorkingText cfg tbc = .ok text)
    (hmin : ¬ ((text.length : Int) < cfg.min_input_len))
    (hprep : pathPrep os cfg text = .error .osError) :
    pathGetCompletions os cfg tbc = ([], none) := by
  simp only [pathGetCompletions, hwt]
  rw [if_neg hmin]
  simp [hprep, PyExc.isOSError]

/-- Claim C4, counterexample to the claim as stated: searching `"d1"` (which
lists fine and matches `"f"`) and `"d2"` (whose listing raises `OSError`)
yields *no* candidates at all, while the same request restricted to `"d1"`
alone yields the candidate for `"f"` — the failing directory did not merely
drop its own contribution. -/
theorem C4_counterexample :
    pathGetCompletions osC cfgC "" = ([], none) ∧
      pathGetCompletions osC cfgC1 "" = ([⟨"f", 0, "f", ""⟩], none) :=
  ⟨by decide, by decide⟩

/-- Claim C4, witness: the amended theorem applied to the two-directory
world. -/
theorem C4_witness : pathGetCompletions osC cfgC "" = ([], none) :=
  C4_amended_error_aborts_whole_request osC cfgC "" "" rfl (by decide) rfl

/-! ### Claim C5 -/

/-- Claim C5, amended: an exception raised by a caller-supplied `get_paths`
or `file_filter` propagates to the caller of the completion request
*unless* it is an `OSError` (or a subclass): the request's
`except OSError: pass` handler swallows supplier-raised `OSError`s exactly
like filesystem ones, so nothing that escapes a request is ever an
`OSError`.  The conjuncts: a non-`OSError` from `get_paths` propagates;
whatever outcome the yield loop reaches — at *any* candidate position —
is what the request reports (with a non-`OSError` exception propagated
after the completions already yielded); the yield loop raises exactly when
`file_filter` raises on some non-skipped candidate pair, and every
exception escaping the loop is one returned by `file_filter` on some
pair; and nothing that a request propagates is an `OSError`. -/
theorem C5_amended_supplier_errors (os : OSModel) (cfg : PathConfig) (tbc : String) :
    (∀ text e, pathWorkingText cfg tbc = .ok text →
        ¬ ((text.length : Int) < cfg.min_input_len) →
        cfg.get_paths os = .error e → e.isOSError = false →
        pathGetCompletions os cfg tbc = ([], some e)) ∧
    (∀ text pfx sorted ys e, pathWorkingText cfg tbc = .ok text →
        ¬ ((text.length : Int) < cfg.min_input_len) →
        pathPrep os cfg text = .ok (pfx, sorted) →
        pathYield os cfg pfx sorted = (ys, some e) → e.isOSError = false →
        pathGetCompletions os cfg tbc = (ys, some e)) ∧
    (∀ pfx pairs, (∃ e, (pathYield os cfg pfx pairs).2 = some e) ↔
        ∃ p ∈ pairs, (!(os.isdir (posixJoin p.1 p.2)) && cfg.only_directories) = false ∧
          ∃ e, cfg.file_filter os (posixJoin p.1 p.2) = .error e) ∧
    (∀ pfx pairs e, (pathYield os cfg pfx pairs).2 = some e →
        ∃ p ∈ pairs, cfg.file_filter os (posixJoin p.1 p.2) = .error e) ∧
    (∀ e, (pathGetCompletions os cfg tbc).2 = some e → e.isOSError = false) := by
  refine ⟨?_, ?_, ?_, ?_, ?_⟩
  · intro text e hwt hmin hgp hos
    simp only [pathGetCompletions, hwt]
    rw [if_neg hmin]
    have hprep : pathPrep os cfg text = .error e := by
      simp [pathPrep, hgp]
    simp [hprep, hos]
  · intro text pfx sorted ys e hwt hmin hprep hy hos
    simp only [pathGetCompletions, hwt]
    rw [if_neg hmin]
    simp only [hprep]
    rw [hy]
    simp [hos]
  · exact fun pfx pairs => pathYield_some_iff os cfg pfx pairs
  · exact fun pfx pairs e h => pathYield_error_src os cfg pfx pairs e h
  · intro e h
    rcases hwt : pathWorkingText cfg tbc with e' | text
    · simp only [pathGetCompletions, hwt] at h
      cases h
      rw [pathWorkingText_error hwt]
      rfl
    · simp only [pathGetCompletions, hwt] at h
      by_cases hmin : ((text.length : Int) < cfg.min_input_len)
      · rw [if_pos hmin] at h
        cases h
      · rw [if_neg hmin] at h
        rcases hprep : pathPrep os cfg text with e' | pr
        · simp only [hprep] at h
          by_cases hos : e'.isOSError = true
          · simp [hos] at h
          · simp only [Bool.not_eq_true] at hos
            simp [hos] at h
            subst h
            exact hos
        · obtain ⟨pfx, sorted⟩ := pr
          simp only [hprep] at h
          rcases hy : (pathYield os cfg pfx sorted).2 with _ | e₀
          · rw [hy] at h
            cases h
          · rw [hy] at h
            by_cases hos : e₀.isOSError = true
            · simp [hos] at h
            · simp only [Bool.not_eq_true] at hos
              simp [hos] at h
              subst h
              exact hos

/-- Claim C5, counterexample to the claim as stated: a `get_paths` supplier
that raises `OSError` is silently swallowed by the request — the caller
sees an empty candidate list and no exception, not the supplier's error. -/
theorem C5_counterexample :
    cfgD.get_paths osA = .error PyExc.osError ∧
      pathGetCompletions osA cfgD "x" = ([], none) :=
  ⟨rfl, by decide⟩

/-- Claim C5, witness: a `ValueError` raised by `get_paths` propagates (by
the first conjunct), and a `ValueError` raised by `file_filter` on the
*second* sorted candidate propagates after the first candidate was yielded
(by the any-position propagation conjunct). -/
theorem C5_witness :
    pathGetCompletions osA cfgD1 "x" = ([], some .valueError) ∧
      pathGetCompletions osG cfgG "" = ([⟨"a", 0, "a", ""⟩], some .valueError) :=
  ⟨(C5_amended_supplier_errors osA cfgD1 "x").1 "x" .valueError rfl (by decide) rfl rfl,
   (C5_amended_supplier_errors osG cfgG "").2.1 "" "" [(".", "a"), (".", "b")]
     [⟨"a", 0, "a", ""⟩] .valueError rfl (by decide) rfl rfl rfl⟩

/-! ### Claim C6 -/

/-- Claim C6, amended: the emitted candidate sequence is sorted ascending,
case-sensitively, by the *raw filename* — i.e. by the display text with the
appended trailing separator stripped — regardless of directory origin.
Because the separator is appended to directory displays *after* sorting,
the display texts themselves need not be in ascending order.  (The
hypothesis that listed entries never already end in `'/'` holds on any real
filesystem, where entry names cannot contain the separator.) -/
theorem C6_amended_sorted_by_filename (os : OSModel) (cfg : PathConfig) (tbc : String)
    (hclean : ∀ d l f, os.listdir d = some l → f ∈ l → f.data.getLast? ≠ some '/') :
    List.Pairwise (fun a b : Completion =>
      pyStrLeB (stripTrailingSlash a.display) (stripTrailingSlash b.display) = true)
      (pathGetCompletions os cfg tbc).1 := by
  rcases hwt : pathWorkingText cfg tbc with e | text
  · simp only [pathGetCompletions, hwt]
    exact List.Pairwise.nil
  · simp only [pathGetCompletions, hwt]
    by_cases hmin : ((text.length : Int) < cfg.min_input_len)
    · rw [if_pos hmin]
      exact List.Pairwise.nil
    · rw [if_neg hmin]
      rcases hprep : pathPrep os cfg text with e | pr
      · simp only [hprep]
        exact List.Pairwise.nil
      · obtain ⟨pfx, sorted⟩ := pr
        simp only [hprep]
        obtain ⟨dirs, pairs, hld, hsorted, _⟩ := pathPrep_inv hprep
        obtain ⟨sub, hsub, heq⟩ := pathYield_shape os cfg pfx sorted
        show List.Pairwise _ (pathYield os cfg pfx sorted).1
        rw [heq, List.pairwise_map]
        have hpw : List.Pairwise fnameLe sub := by
          have h1 : List.Pairwise fnameLe sorted := by
            rw [hsorted]
            exact sortByFilename_pairwise pairs
          exact List.Pairwise.sublist hsub h1
        have hstrip : ∀ r ∈ sub, stripTrailingSlash (pathCompletionOf os pfx r).display = r.2 := by
          intro r hr
          have hrp : r ∈ pairs := by
            have h2 : r ∈ sorted := hsub.subset hr
            rw [hsorted] at h2
            exact (sortByFilename_perm pairs).subset h2
          obtain ⟨_, l, hl, hfl⟩ := pathListDirs_mem os pfx dirs pairs hld r hrp
          show stripTrailingSlash (pathDisplayOf os r) = r.2
          unfold pathDisplayOf
          by_cases hisd : os.isdir (posixJoin r.1 r.2) = true
          · rw [if_pos hisd]
            exact stripTrailingSlash_append r.2
          · rw [if_neg hisd]
            exact stripTrailingSlash_of_ne (hclean r.1 l r.2 hl hfl)
        refine hpw.imp_of_mem ?_
        intro p q hp hq hle
        show pyStrLeB (stripTrailingSlash (pathCompletionOf os pfx p).display)
          (stripTrailingSlash (pathCompletionOf os pfx q).display) = true
        rw [hstrip p hp, hstrip q hq]
        exact hle

/-- Claim C6, counterexample to the claim as stated: with directory `"a"`
and file `"a-b"` both matching, the code sorts by raw filename
(`"a" < "a-b"`) and then appends the separator to the directory's display,
emitting displays `["a/", "a-b"]` — but `"a/" ≤ "a-b"` is false in
code-point order (`'/' > '-'`), so the sequence is *not* sorted by
display text. -/
theorem C6_counterexample :
    (pathGetCompletions osE cfgA "").1.map (fun c => c.display) = ["a/", "a-b"] ∧
      pyStrLeB "a/" "a-b" = false :=
  ⟨by decide, by decide⟩

/-- Claim C6, witness: the amended theorem applied to the spec's directory
scenario (`/tmp/x` holding `alpha.txt`, `alphabet/`, `beta.txt`, input
`"/tmp/x/al"`). -/
theorem C6_witness :
    List.Pairwise (fun a b : Completion =>
      pyStrLeB (stripTrailingSlash a.display) (stripTrailingSlash b.display) = true)
      (pathGetCompletions osW6 cfgW6 "/tmp/x/al").1 :=
  C6_amended_sorted_by_filename osW6 cfgW6 "/tmp/x/al" (by
    intro d l f hl hf
    by_cases hd : d = "/tmp/x"
    · simp only [osW6, hd, if_pos] at hl
      cases hl
      simp only [List.mem_cons, List.not_mem_nil, or_false] at hf
      rcases hf with rfl | rfl | rfl <;> decide
    · simp only [osW6, if_neg hd] at hl
      cases hl)

/-! ### Claim C7 -/

/-- Claim C7, amended: with `ignore_case = true`, the word completer
case-folds the anchor for comparison *and* reuses the folded anchor for
the offset: every emitted completion has
`start_offset = -length(lower(anchor))` — the length of the *case-folded*
anchor, not of the original one.  The two lengths agree whenever lowering
is length-preserving (every ASCII anchor), but differ for anchors with
expanding lowercase mappings such as U+0130.  Insertion and display text
do keep the candidate word's original casing (the insertion text is an
element of the resolved word list and the display equals it). -/
theorem C7_folded_anchor_offset (self : WordCompleter) (doc : Document) (c : Completion)
    (hic : self.ignore_case = true) (hc : c ∈ wordGetCompletions self doc) :
    c.start_position = -((pyLower (wordAnchor self doc)).length : Int) ∧
      c.text ∈ wordResolvedWords self ∧ c.display = c.text := by
  unfold wordGetCompletions at hc
  rcases List.mem_filterMap.mp hc with ⟨a, ha, hfa⟩
  by_cases hm : wordMatchesB self (wordFoldedAnchor self doc) a = true
  · rw [if_pos hm] at hfa
    cases hfa
    refine ⟨?_, ha, rfl⟩
    show -(((wordFoldedAnchor self doc)).length : Int) =
      -((pyLower (wordAnchor self doc)).length : Int)
    rw [wordFoldedAnchor, if_pos hic]
  · rw [if_neg hm] at hfa
    cases hfa

/-- Claim C7, counterexample to the claim as stated: with
`ignore_case = true`, word list `["i̇z"]` and typed anchor `"İ"` (U+0130,
one character), Python's `str.lower` maps the anchor to `"i̇"` (two code
points), the word matches, and the emitted completion carries
`start_offset = -2`, not `-length("İ") = -1`. -/
theorem C7_counterexample :
    (wordGetCompletions selfY docY).map (fun c => c.start_position) = [-2] ∧
      -(((wordAnchor selfY docY)).length : Int) = -1 ∧ (-2 : Int) ≠ -1 :=
  ⟨by decide, by decide, by decide⟩

/-- Claim C7, witness: the spec's scenario — words
`["add", "remove", "update"]`, `ignore_case = true`, anchor `"AD"` — emits
exactly `Completion("add", -2)`, and the amended theorem instantiates to
it (for the ASCII anchor the folded length equals the original length). -/
theorem C7_witness :
    wordGetCompletions selfW docW = [⟨"add", -2, "add", ""⟩] ∧
      ((⟨"add", -2, "add", ""⟩ : Completion).start_position =
          -((pyLower (wordAnchor selfW docW)).length : Int) ∧
        (⟨"add", -2, "add", ""⟩ : Completion).text ∈ wordResolvedWords selfW ∧
        (⟨"add", -2, "add", ""⟩ : Completion).display =
          (⟨"add", -2, "add", ""⟩ : Completion).text) :=
  ⟨by decide,
   C7_folded_anchor_offset selfW docW ⟨"add", -2, "add", ""⟩ rfl (by decide)⟩

/-! ### Claim C8 -/

/-- Claim C8: a candidate word `w` is emitted (a completion with insertion
text `w` appears in the output) if and only if — with both sides
case-folded when `ignore_case` is set — the anchor is a substring of `w`
when `match_middle` is true, and `w` starts with the anchor when
`match_middle` is false. -/
theorem C8_match_iff (self : WordCompleter) (doc : Document) (w : String)
    (hw : w ∈ wordResolvedWords self) :
    ((wordGetCompletions self doc).any (fun c => c.text == w) = true) ↔
      ((if self.match_middle then pyIn (wordFoldedAnchor self doc) (wordFold self w)
        else pyStartsWith (wordFold self w) (wordFoldedAnchor self doc)) = true) := by
  constructor
  · intro h
    rcases List.any_eq_true.mp h with ⟨c, hc, hcw⟩
    unfold wordGetCompletions at hc
    rcases List.mem_filterMap.mp hc with ⟨a, _, hfa⟩
    by_cases hm : wordMatchesB self (wordFoldedAnchor self doc) a = true
    · rw [if_pos hm] at hfa
      cases hfa
      have haw : a = w := by simpa using hcw
      subst haw
      exact hm
    · rw [if_neg hm] at hfa
      cases hfa
  · intro h
    apply List.any_eq_true.mpr
    refine ⟨⟨w, -((wordFoldedAnchor self doc).length : Int), w,
      (self.meta_dict.lookup w).getD ""⟩, ?_, by simp⟩
    unfold wordGetCompletions
    apply List.mem_filterMap.mpr
    refine ⟨w, hw, ?_⟩
    have hm : wordMatchesB self (wordFoldedAnchor self doc) w = true := h
    rw [if_pos hm]

/-- Claim C8, witness: the spec's scenario — words `["create", "update"]`,
`match_middle = true`, anchor `"eat"` — where `"create"` is emitted because
the anchor occurs in its middle. -/
theorem C8_witness :
    ("create" : String) ∈ wordResolvedWords selfX ∧
      (((wordGetCompletions selfX docX).any (fun c => c.text == "create") = true) ↔
        ((if selfX.match_middle then pyIn (wordFoldedAnchor selfX docX) (wordFold selfX "create")
          else pyStartsWith (wordFold selfX "create") (wordFoldedAnchor selfX docX)) = true)) :=
  ⟨by decide, C8_match_iff selfX docX "create" (by decide)⟩

/-! ### Claim C9 -/

/-- Claim C9: constructing a word completer with both `WORD = true`
(broad word-token mode) and `sentence = true` fails at construction time
with `AssertionError` — the failure is raised by `__init__` itself and so
is surfaced immediately to the caller, never deferred to a completion
request (a completer value is never produced). -/
theorem C9_word_and_sentence_assert (words : WordsSource) (ic : Bool)
    (md : List (String × String)) (mm : Bool) (pat : Option String) :
    WordCompleter.init words ic md true true mm pat = .error .assertionError := rfl

/-! ### Claim C10 -/

/-- Claim C10, amended: the executable completer's `get_paths` reads the
`PATH` environment variable from the world given at call time (not a value
captured at construction), splitting it on `':'`.  When `PATH` is unset or
empty that split is `[""]` — not the empty list — so a call whose working
text has an *empty directory component* yields no candidates and raises no
error; a call whose working text contains a directory part resolves it
against the empty search base and can still yield candidates. -/
theorem C10_amended_env_at_call_time (os : OSModel) (tbc : String) :
    execConfig.get_paths os = .ok (pySplitOn ((os.environ "PATH").getD "") ':') ∧
      ((os.environ "PATH" = none ∨ os.environ "PATH" = some "") →
        os.isdir "" = false →
        posixDirname (pathExpanded os execConfig (pyStrip tbc)) = "" →
        execGetCompletions os tbc = ([], none)) := by
  refine ⟨rfl, ?_⟩
  intro hP hdot hdn
  have hwt : pathWorkingText execConfig tbc = .ok (pyStrip tbc) := rfl
  simp only [execGetCompletions, pathGetCompletions, hwt]
  by_cases hmin : (((pyStrip tbc).length : Int) < execConfig.min_input_len)
  · rw [if_pos hmin]
  · rw [if_neg hmin]
    have hgp : execConfig.get_paths os = .ok [""] := by
      show Except.ok (pySplitOn ((os.environ "PATH").getD "") ':') = .ok [""]
      rcases hP with h | h <;> rw [h] <;> rfl
    have hld : pathListDirs os (posixBasename (pathExpanded os execConfig (pyStrip tbc))) [""]
        = .ok [] := by
      simp [pathListDirs, hdot]
    have hprep : pathPrep os execConfig (pyStrip tbc) =
        .ok (posixBasename (pathExpanded os execConfig (pyStrip tbc)), []) := by
      simp only [pathPrep, hgp]
      have hdirs : pathCandidateDirs os execConfig (pyStrip tbc) [""] = [""] := by
        unfold pathCandidateDirs
        rw [if_pos hdn]
      rw [hdirs, hld]
      rfl
    simp only [hprep]
    rfl

/-- Claim C10, counterexample to the claim as stated: with `PATH` set but
empty, typing the absolute path `"/usr/bi"` still yields a candidate
(`bin/`), because the empty search base `""` resolves the typed directory
component directly — the claim's "a call yields no candidates" does not
hold for every call. -/
theorem C10_counterexample :
    execGetCompletions osF "/usr/bi" = ([⟨"n", 0, "bin/", ""⟩], none) ∧
      osF.environ "PATH" = some "" :=
  ⟨by decide, rfl⟩

/-- Claim C10, witness: the amended theorem applied to a world with empty
`PATH`, no directories, and the directory-free input `"bi"`. -/
theorem C10_witness : execGetCompletions osF1 "bi" = ([], none) :=
  (C10_amended_env_at_call_time osF1 "bi").2 (Or.inr rfl) rfl rfl
